import Mathlib

/-
  Verification of the orientation-fusion subsystem of locar.js
  (class DeviceOrientationControls in the device-orientation source file).

  Modelling conventions.  Angles and all numeric sensor values are modelled
  as rationals.  In every code path relevant to the verified properties,
  Math.PI occurs only as an abstract positive scale constant (in HALF_PI,
  TWO_PI and the degree/radian conversion factors); no trigonometric value
  is ever inspected by these properties.  Math.PI is therefore passed as an
  explicit parameter named pi, assumed positive where a theorem needs it.
  The JavaScript remainder operator, which truncates toward zero, is
  modelled by jsMod; the mathematical modulus of the specification text is
  mathMod.
-/

set_option maxHeartbeats 1000000

namespace LocAR

/-- Truncation toward zero on rationals, matching the rounding used by the
JavaScript remainder operator. -/
def truncQ (x : ℚ) : ℤ := if 0 ≤ x then ⌊x⌋ else ⌈x⌉

/-- The JavaScript `%` operator on rationals: remainder of division
truncated toward zero. -/
def jsMod (x y : ℚ) : ℚ := x - y * truncQ (x / y)

/-- Mathematical modulus, with result in `[0, y)` whenever `0 < y`.  This
is the `mod` of the specification text. -/
def mathMod (x y : ℚ) : ℚ := x - y * ⌊x / y⌋

theorem mathMod_eq_self {x y : ℚ} (h0 : 0 ≤ x) (h1 : x < y) : mathMod x y = x := by
  have hy : 0 < y := lt_of_le_of_lt h0 h1
  have hfl : ⌊x / y⌋ = 0 := by
    rw [Int.floor_eq_zero_iff, Set.mem_Ico]
    exact ⟨div_nonneg h0 hy.le, (div_lt_one hy).mpr h1⟩
  simp [mathMod, hfl]

theorem mathMod_add_self {x y : ℚ} (hy : y ≠ 0) : mathMod (x + y) y = mathMod x y := by
  have hdiv : (x + y) / y = x / y + (1 : ℤ) := by
    push_cast
    field_simp
  rw [mathMod, mathMod, hdiv, Int.floor_add_int]
  push_cast
  ring

theorem mathMod_sub_self {x y : ℚ} (hy : y ≠ 0) : mathMod (x - y) y = mathMod x y := by
  have hdiv : (x - y) / y = x / y - (1 : ℤ) := by
    push_cast
    field_simp
  rw [mathMod, mathMod, hdiv, Int.floor_sub_int]
  push_cast
  ring

theorem mathMod_nonneg {x y : ℚ} (hy : 0 < y) : 0 ≤ mathMod x y := by
  have h := Int.floor_le (x / y)
  rw [le_div_iff₀ hy] at h
  unfold mathMod
  linarith

theorem mathMod_lt {x y : ℚ} (hy : 0 < y) : mathMod x y < y := by
  have h := Int.lt_floor_add_one (x / y)
  rw [div_lt_iff₀ hy] at h
  unfold mathMod
  linarith

theorem jsMod_eq_mathMod {x y : ℚ} (h0 : 0 ≤ x) (hy : 0 < y) : jsMod x y = mathMod x y := by
  unfold jsMod mathMod truncQ
  rw [if_pos (div_nonneg h0 hy.le)]

theorem jsMod_neg_bounds {x y : ℚ} (hx : x < 0) (hy : 0 < y) :
    -y < jsMod x y ∧ jsMod x y ≤ 0 := by
  have hxy : x / y < 0 := div_neg_of_neg_of_pos hx hy
  unfold jsMod truncQ
  rw [if_neg (not_le.mpr hxy)]
  have h1 : x / y ≤ (⌈x / y⌉ : ℚ) := Int.le_ceil _
  have h2 : (⌈x / y⌉ : ℚ) < x / y + 1 := Int.ceil_lt_add_one _
  rw [div_le_iff₀ hy] at h1
  constructor
  · have h2' : ((⌈x / y⌉ : ℚ) - 1) * y < x := by
      rw [← lt_div_iff₀ hy]
      linarith
    nlinarith
  · nlinarith

/-- MathUtils.degToRad, with Math.PI abstracted as the parameter pi. -/
def degToRad (pi d : ℚ) : ℚ := d * (pi / 180)

/-- Return value of the angle-ordering helper (source name with a leading
underscore: orderAngle), a record with fields left and right. -/
structure OrderedAngles where
  left : ℚ
  right : ℚ
deriving DecidableEq

/-- Source helper orderAngle (leading underscore in the source): chooses
which of the two angles is the left endpoint of the shorter arc. -/
def orderAngle (a b range : ℚ) : OrderedAngles :=
  if (b > a ∧ |b - a| < range / 2) ∨ (a > b ∧ |b - a| > range / 2) then
    { left := a, right := b }
  else
    { left := b, right := a }

/-- Source helper getSmoothedAngle (leading underscore in the source):
weighted circular interpolation between angle a (new) and angle b
(previous) on a circle of circumference range, with weight k on the new
sample. -/
def getSmoothedAngle (a b k range : ℚ) : ℚ :=
  let angles := orderAngle a b range
  let angleshift := angles.left
  let origAnglesRight := angles.right
  let newleft : ℚ := 0
  let right0 := angles.right - angleshift
  let right := if right0 < 0 then right0 + range else right0
  let newangle :=
    if origAnglesRight = b then (1 - k) * right + k * newleft
    else k * right + (1 - k) * newleft
  let shifted := newangle + angleshift
  if shifted ≥ range then shifted - range else shifted

/-- Source helper calcAngleWithThreshold (leading underscore in the
source); threshold is the captured field orientationChangeThreshold. -/
def calcAngleWithThreshold (threshold a b : ℚ) : ℚ :=
  if |a - b| < threshold then b else a

/-- Circular distance between two angles on a circle of circumference r:
the length of the shorter of the two arcs joining them. -/
def circDist (x y r : ℚ) : ℚ := min (mathMod (x - y) r) (mathMod (y - x) r)

/-- The stored device-orientation sample (field deviceOrientation).  The
handler never stores the absolute flag, but getCorrectedHeading reads it,
so it is kept as an optional field. -/
structure DOSample where
  alpha : ℚ
  beta : ℚ
  gamma : ℚ
  webkitCompassHeading : Option ℚ
  absolute : Option Bool
deriving DecidableEq

/-- A raw DeviceOrientationEvent as consumed by the sensor callback;
missing numeric fields are modelled as none and default to 0 via the
nullish-coalescing in the handler. -/
structure OrientationEvent where
  alpha : Option ℚ
  beta : Option ℚ
  gamma : Option ℚ
  webkitCompassHeading : Option ℚ
deriving DecidableEq

/-- The lastOrientation record stored by update. -/
structure EulerAngles where
  alpha : ℚ
  beta : ℚ
  gamma : ℚ
deriving DecidableEq

/-- Symbolic model of the target Object3D quaternion.  The numeric
quaternion is trigonometric and is never inspected by any verified
property; the model records exactly which arguments were written to it:
composed corresponds to a plain setObjectQuaternion call, and
composedCompassOverride to the Apple-mobile path where the Euler y
component of the composed rotation is overridden by the compass-derived
yaw plus the screen-orientation offset. -/
inductive QuatModel where
  | initial : QuatModel
  | composed (alpha beta gamma orient : ℚ) : QuatModel
  | composedCompassOverride (alpha beta gamma orient yOverride : ℚ) : QuatModel
deriving DecidableEq

/-- The mutable fields of a DeviceOrientationControls instance, together
with the per-instance configuration set in the constructor. -/
structure ControlsState where
  enabled : Bool
  deviceOrientation : Option DOSample
  screenOrientation : ℚ
  alphaOffset : ℚ
  orientationOffset : ℚ
  initialOffset : Option Bool
  lastCompassY : Option ℚ
  lastOrientation : Option EulerAngles
  smoothingFactor : ℚ
  orientationChangeThreshold : ℚ
  enablePermissionDialog : Bool
  preferConfirmDialog : Bool
  listening : Bool
  objectQuaternion : QuatModel
deriving DecidableEq

/-- State established by the constructor with an empty options object:
smoothingFactor defaults to 1 and orientationChangeThreshold to 0. -/
def initialState : ControlsState :=
  { enabled := true
    deviceOrientation := none
    screenOrientation := 0
    alphaOffset := 0
    orientationOffset := 0
    initialOffset := none
    lastCompassY := none
    lastOrientation := none
    smoothingFactor := 1
    orientationChangeThreshold := 0
    enablePermissionDialog := true
    preferConfirmDialog := false
    listening := false
    objectQuaternion := QuatModel.initial }

/-- The sensor callback onDeviceOrientationChangeEvent.  The dispatch of
the camera-rotation-change CustomEvent is an external side effect with no
effect on this state.  isIOS is the module-level user-agent flag. -/
def onDeviceOrientationChangeEvent (pi : ℚ) (isIOS : Bool) (event : OrientationEvent)
    (s : ControlsState) : ControlsState :=
  let alpha := event.alpha.getD 0
  let beta := event.beta.getD 0
  let gamma := event.gamma.getD 0
  let webkitCompassHeading := event.webkitCompassHeading.getD 0
  if isIOS then
    let ccwNorthHeading := 360 - webkitCompassHeading
    { s with
      alphaOffset := degToRad pi (ccwNorthHeading - alpha)
      deviceOrientation := some
        { alpha := alpha, beta := beta, gamma := gamma
          webkitCompassHeading := some webkitCompassHeading, absolute := none } }
  else
    let alpha := if alpha < 0 then alpha + 360 else alpha
    { s with
      deviceOrientation := some
        { alpha := alpha, beta := beta, gamma := gamma
          webkitCompassHeading := none, absolute := none } }

/-- The screen-rotation callback onScreenOrientationChangeEvent;
screenAngle models window.screen.orientation.angle (none when the screen
API is absent). -/
def onScreenOrientationChangeEvent (pi : ℚ) (isIOS : Bool) (screenAngle : Option ℚ)
    (s : ControlsState) : ControlsState :=
  let s1 := { s with screenOrientation := screenAngle.getD 0 }
  if isIOS then
    if s1.screenOrientation = 90 then { s1 with orientationOffset := -(pi / 2) }
    else if s1.screenOrientation = -90 then { s1 with orientationOffset := pi / 2 }
    else { s1 with orientationOffset := 0 }
  else s1

/-- connect: runs the screen-orientation handler once, registers the
listeners (modelled by the listening flag) and enables the controls. -/
def connect (pi : ℚ) (isIOS : Bool) (screenAngle : Option ℚ) (s : ControlsState) :
    ControlsState :=
  let s1 := onScreenOrientationChangeEvent pi isIOS screenAngle s
  { s1 with listening := true, enabled := true }

/-- disconnect: removes the listeners, disables the controls, sets
initialOffset to false and clears the stored sample. -/
def disconnect (s : ControlsState) : ControlsState :=
  { s with
    listening := false
    enabled := false
    initialOffset := some false
    deviceOrientation := none }

/-- getAlpha: offset-corrected alpha in radians; the truthiness test on
device.alpha means a stored alpha of exactly 0 yields 0, not alphaOffset. -/
def getAlpha (pi : ℚ) (s : ControlsState) : ℚ :=
  match s.deviceOrientation with
  | some device =>
    if device.alpha ≠ 0 then degToRad pi device.alpha + s.alphaOffset else 0
  | none => 0

/-- getBeta, with the same truthiness behaviour as getAlpha. -/
def getBeta (pi : ℚ) (s : ControlsState) : ℚ :=
  match s.deviceOrientation with
  | some device => if device.beta ≠ 0 then degToRad pi device.beta else 0
  | none => 0

/-- getGamma, with the same truthiness behaviour as getAlpha. -/
def getGamma (pi : ℚ) (s : ControlsState) : ℚ :=
  match s.deviceOrientation with
  | some device => if device.gamma ≠ 0 then degToRad pi device.gamma else 0
  | none => 0

/-- getCorrectedHeading.  On the Apple path the modulus is only applied
when orientationOffset is truthy; on the other path the isAbsolute branch
of the source has an empty body (its content is commented out), so the
heading is reversed and normalised the same way in both cases. -/
def getCorrectedHeading (pi : ℚ) (isIOS : Bool) (s : ControlsState) : ℚ :=
  match s.deviceOrientation with
  | none => 0
  | some device =>
    if isIOS then
      let heading := 360 - device.webkitCompassHeading.getD 0
      if s.orientationOffset ≠ 0 then
        jsMod (heading + s.orientationOffset * (180 / pi) + 360) 360
      else heading
    else
      let heading := if device.alpha ≠ 0 then device.alpha else 0
      let heading := jsMod (360 - heading) 360
      if heading < 0 then heading + 360 else heading

/-- Conversion of the stored alpha for one update tick: the truthiness
test on device.alpha skips both the conversion and the offset when the
stored alpha is 0. -/
def rawAlpha (pi : ℚ) (s : ControlsState) (device : DOSample) : ℚ :=
  if device.alpha ≠ 0 then degToRad pi device.alpha + s.alphaOffset else 0

/-- Conversion of the stored beta for one update tick. -/
def rawBeta (pi : ℚ) (device : DOSample) : ℚ :=
  if device.beta ≠ 0 then degToRad pi device.beta else 0

/-- Conversion of the stored gamma for one update tick. -/
def rawGamma (pi : ℚ) (device : DOSample) : ℚ :=
  if device.gamma ≠ 0 then degToRad pi device.gamma else 0

/-- Conversion of the stored screen orientation for one update tick. -/
def rawOrient (pi : ℚ) (s : ControlsState) : ℚ :=
  if s.screenOrientation ≠ 0 then degToRad pi s.screenOrientation else 0

/-- One fusion tick (the update method).  Returns the state unchanged when
the controls are disabled or no sample has been stored. -/
def update (pi : ℚ) (isIOS : Bool) (s : ControlsState) : ControlsState :=
  if s.enabled = false then s
  else
    match s.deviceOrientation with
    | none => s
    | some device =>
      let alpha0 := rawAlpha pi s device
      let beta0 := rawBeta pi device
      let gamma0 := rawGamma pi device
      let orient := rawOrient pi s
      let smoothed : EulerAngles :=
        if s.smoothingFactor < 1 then
          match s.lastOrientation with
          | some last =>
            { alpha := getSmoothedAngle alpha0 last.alpha s.smoothingFactor (2 * pi)
              beta := getSmoothedAngle (beta0 + pi) last.beta s.smoothingFactor (2 * pi)
              gamma := getSmoothedAngle (gamma0 + pi / 2) last.gamma s.smoothingFactor pi }
          | none =>
            { alpha := alpha0, beta := beta0 + pi, gamma := gamma0 + pi / 2 }
        else { alpha := alpha0, beta := beta0, gamma := gamma0 }
      let t : EulerAngles :=
        match s.lastOrientation with
        | some last =>
          { alpha := calcAngleWithThreshold s.orientationChangeThreshold smoothed.alpha last.alpha
            beta := calcAngleWithThreshold s.orientationChangeThreshold smoothed.beta last.beta
            gamma := calcAngleWithThreshold s.orientationChangeThreshold smoothed.gamma last.gamma }
        | none => smoothed
      let betaC := if s.smoothingFactor < 1 then t.beta - pi else t.beta
      let gammaC := if s.smoothingFactor < 1 then t.gamma - pi / 2 else t.gamma
      if isIOS then
        let compassY0 := degToRad pi (360 - device.webkitCompassHeading.getD 0)
        let compassY :=
          if s.smoothingFactor < 1 then
            match s.lastCompassY with
            | some lastY => getSmoothedAngle compassY0 lastY s.smoothingFactor (2 * pi)
            | none => compassY0
          else compassY0
        { s with
          objectQuaternion :=
            QuatModel.composedCompassOverride t.alpha betaC gammaC orient
              (compassY + s.orientationOffset)
          lastCompassY := some compassY
          lastOrientation := some t }
      else
        { s with
          objectQuaternion := QuatModel.composed t.alpha betaC gammaC orient
          lastOrientation := some t }

/-- Error codes of the deviceorientationerror notification (the
LOCAR_DEVICE_ORIENTATION prefixes of the source strings are dropped). -/
inductive ErrCode where
  | notSupported : ErrCode
  | noHttps : ErrCode
  | permissionDenied : ErrCode
  | permissionFailed : ErrCode
  | internalError : ErrCode
deriving DecidableEq

/-- A notification sent on the event-emitter channel:
deviceorientationgranted or deviceorientationerror with a code. -/
inductive EmittedEvent where
  | granted : EmittedEvent
  | error (code : ErrCode) : EmittedEvent
deriving DecidableEq

/-- The browser environment consulted by the permission logic:
window.DeviceOrientationEvent presence, window.isSecureContext, presence
of DeviceOrientationEvent.requestPermission, whether the returned promise
rejects, whether the resolved response string equals granted, and the
result of window.confirm. -/
structure PermEnv where
  hasDeviceOrientationEvent : Bool
  isSecureContext : Bool
  hasRequestPermission : Bool
  requestThrows : Bool
  permissionResponseGranted : Bool
  confirmResult : Bool
deriving DecidableEq

/-- requestOrientationPermissions: the list of notifications emitted once
the permission request settles. -/
def requestOrientationPermissions (env : PermEnv) : List EmittedEvent :=
  if env.hasDeviceOrientationEvent = true ∧ env.hasRequestPermission = true then
    if env.requestThrows then [EmittedEvent.error ErrCode.permissionFailed]
    else if env.permissionResponseGranted then [EmittedEvent.granted]
    else [EmittedEvent.error ErrCode.permissionDenied]
  else [EmittedEvent.error ErrCode.internalError]

/-- obtainPermissionGesture: with preferConfirmDialog the confirm dialog
either triggers the permission request or does nothing; otherwise the HTML
dialog is created and no notification is emitted until its button is
clicked (see dialogButtonClick). -/
def obtainPermissionGesture (s : ControlsState) (env : PermEnv) : List EmittedEvent :=
  if s.preferConfirmDialog = true then
    if env.confirmResult then requestOrientationPermissions env else []
  else []

/-- The onStartClick handler of the HTML permission dialog. -/
def dialogButtonClick (env : PermEnv) : List EmittedEvent :=
  requestOrientationPermissions env

/-- The notifications emitted synchronously by the init method. -/
def initEvents (s : ControlsState) (env : PermEnv) : List EmittedEvent :=
  if env.hasDeviceOrientationEvent = false then
    [EmittedEvent.error ErrCode.notSupported]
  else if env.isSecureContext = false then
    [EmittedEvent.error ErrCode.noHttps]
  else if env.hasRequestPermission = true ∧ s.enablePermissionDialog = true then
    obtainPermissionGesture s env
  else [EmittedEvent.granted]

/-- Number of granted notifications in an emission list. -/
def grantedCount (l : List EmittedEvent) : Nat :=
  l.countP fun e => e == EmittedEvent.granted

/-- Number of error notifications in an emission list, of any code. -/
def errorCount (l : List EmittedEvent) : Nat :=
  l.countP fun e =>
    match e with
    | EmittedEvent.error _ => true
    | _ => false

/-- Helper: the deadband filter with threshold 0 is the identity on the
new angle, because the absolute difference is never strictly below 0. -/
theorem calcAngleWithThreshold_zero (a b : ℚ) : calcAngleWithThreshold 0 a b = a := by
  simp [calcAngleWithThreshold, not_lt.mpr (abs_nonneg (a - b))]

/-- C4: the deadband filter returns the previous angle b whenever the
difference of the pair is strictly below the configured threshold t,
returns the new angle a otherwise, and with threshold 0 it returns a for
every pair. -/
theorem calcAngleWithThreshold_spec (t a b : ℚ) (ht : 0 ≤ t) :
    (|a - b| < t → calcAngleWithThreshold t a b = b) ∧
    (¬ |a - b| < t → calcAngleWithThreshold t a b = a) ∧
    (t = 0 → calcAngleWithThreshold t a b = a) := by
  refine ⟨?_, ?_, ?_⟩
  · intro h
    simp [calcAngleWithThreshold, h]
  · intro h
    simp [calcAngleWithThreshold, h]
  · intro h
    subst h
    exact calcAngleWithThreshold_zero a b

theorem calcAngleWithThreshold_spec_witness :
    calcAngleWithThreshold 1 (3 : ℚ) (7 / 2) = 7 / 2 ∧
    calcAngleWithThreshold 1 (3 : ℚ) 5 = 3 ∧
    calcAngleWithThreshold 0 (3 : ℚ) 3 = 3 :=
  ⟨(calcAngleWithThreshold_spec 1 3 (7 / 2) (by norm_num)).1
      (abs_sub_lt_iff.mpr ⟨by norm_num, by norm_num⟩),
   (calcAngleWithThreshold_spec 1 3 5 (by norm_num)).2.1
      (not_lt.mpr (le_trans (by norm_num : (1 : ℚ) ≤ 5 - 3)
        (le_trans (le_abs_self _) (le_of_eq (abs_sub_comm 5 3))))),
   (calcAngleWithThreshold_spec 0 3 3 (by norm_num)).2.2 rfl⟩

/-- C7: when the controls are disabled, update returns immediately and the
whole state, in particular the target quaternion, lastOrientation,
lastCompassY, alphaOffset and orientationOffset, is exactly as before. -/
theorem update_disabled_noop (pi : ℚ) (isIOS : Bool) (s : ControlsState)
    (h : s.enabled = false) : update pi isIOS s = s := by
  simp [update, h]

theorem update_disabled_noop_witness :
    update 3 false (disconnect initialState) = disconnect initialState :=
  update_disabled_noop 3 false (disconnect initialState) (by decide)

/-- C8: disconnect disables the controls and clears the stored sample, so
all three accessors return 0 afterwards; alphaOffset and orientationOffset
are untouched, and disconnect is idempotent. -/
theorem disconnect_spec (pi : ℚ) (s : ControlsState) :
    (disconnect s).enabled = false ∧
    (disconnect s).deviceOrientation = none ∧
    getAlpha pi (disconnect s) = 0 ∧
    getBeta pi (disconnect s) = 0 ∧
    getGamma pi (disconnect s) = 0 ∧
    (disconnect s).alphaOffset = s.alphaOffset ∧
    (disconnect s).orientationOffset = s.orientationOffset ∧
    disconnect (disconnect s) = disconnect s :=
  ⟨rfl, rfl, rfl, rfl, rfl, rfl, rfl, rfl⟩

/-- C9: when the stored sample holds an axis value of exactly 0, the
truthiness test in the accessor short-circuits, so getAlpha returns 0 and
not alphaOffset, and getBeta and getGamma likewise return 0. -/
theorem accessor_zero_truthiness (pi : ℚ) (s : ControlsState) (device : DOSample)
    (hd : s.deviceOrientation = some device) :
    (device.alpha = 0 → getAlpha pi s = 0) ∧
    (device.beta = 0 → getBeta pi s = 0) ∧
    (device.gamma = 0 → getGamma pi s = 0) := by
  refine ⟨?_, ?_, ?_⟩ <;> intro h <;>
    simp [getAlpha, getBeta, getGamma, hd, h]

/-- C5: init without the orientation API emits exactly one NOT_SUPPORTED
error and no granted notification; init in an insecure context emits
exactly one NO_HTTPS error; a successful permission grant emits exactly
one granted notification and no error, both for the raw permission request
and for the whole init path through an accepted confirm dialog. -/
theorem init_notification_spec (s : ControlsState) (env : PermEnv) :
    (env.hasDeviceOrientationEvent = false →
      initEvents s env = [EmittedEvent.error ErrCode.notSupported] ∧
      errorCount (initEvents s env) = 1 ∧ grantedCount (initEvents s env) = 0) ∧
    (env.hasDeviceOrientationEvent = true → env.isSecureContext = false →
      initEvents s env = [EmittedEvent.error ErrCode.noHttps] ∧
      errorCount (initEvents s env) = 1 ∧ grantedCount (initEvents s env) = 0) ∧
    (env.hasDeviceOrientationEvent = true → env.hasRequestPermission = true →
      env.requestThrows = false → env.permissionResponseGranted = true →
      requestOrientationPermissions env = [EmittedEvent.granted] ∧
      grantedCount (requestOrientationPermissions env) = 1 ∧
      errorCount (requestOrientationPermissions env) = 0) ∧
    (env.hasDeviceOrientationEvent = true → env.isSecureContext = true →
      env.hasRequestPermission = true → s.enablePermissionDialog = true →
      s.preferConfirmDialog = true → env.confirmResult = true →
      env.requestThrows = false → env.permissionResponseGranted = true →
      initEvents s env = [EmittedEvent.granted] ∧
      grantedCount (initEvents s env) = 1 ∧
      errorCount (initEvents s env) = 0) := by
  refine ⟨?_, ?_, ?_, ?_⟩
  · intro h
    have hl : initEvents s env = [EmittedEvent.error ErrCode.notSupported] := by
      simp [initEvents, h]
    exact ⟨hl, by rw [hl]; rfl, by rw [hl]; rfl⟩
  · intro h1 h2
    have hl : initEvents s env = [EmittedEvent.error ErrCode.noHttps] := by
      simp [initEvents, h1, h2]
    exact ⟨hl, by rw [hl]; rfl, by rw [hl]; rfl⟩
  · intro h1 h2 h3 h4
    have hl : requestOrientationPermissions env = [EmittedEvent.granted] := by
      simp [requestOrientationPermissions, h1, h2, h3, h4]
    exact ⟨hl, by rw [hl]; rfl, by rw [hl]; rfl⟩
  · intro h1 h2 h3 h4 h5 h6 h7 h8
    have hl : initEvents s env = [EmittedEvent.granted] := by
      simp [initEvents, obtainPermissionGesture, requestOrientationPermissions,
        h1, h2, h3, h4, h5, h6, h7, h8]
    exact ⟨hl, by rw [hl]; rfl, by rw [hl]; rfl⟩

theorem init_notification_spec_witness :
    initEvents initialState
      { hasDeviceOrientationEvent := false, isSecureContext := true
        hasRequestPermission := false, requestThrows := false
        permissionResponseGranted := false, confirmResult := false } =
      [EmittedEvent.error ErrCode.notSupported] ∧
    initEvents initialState
      { hasDeviceOrientationEvent := true, isSecureContext := false
        hasRequestPermission := false, requestThrows := false
        permissionResponseGranted := false, confirmResult := false } =
      [EmittedEvent.error ErrCode.noHttps] ∧
    requestOrientationPermissions
      { hasDeviceOrientationEvent := true, isSecureContext := true
        hasRequestPermission := true, requestThrows := false
        permissionResponseGranted := true, confirmResult := true } =
      [EmittedEvent.granted] :=
  ⟨((init_notification_spec initialState
      { hasDeviceOrientationEvent := false, isSecureContext := true
        hasRequestPermission := false, requestThrows := false
        permissionResponseGranted := false, confirmResult := false }).1 rfl).1,
   ((init_notification_spec initialState
      { hasDeviceOrientationEvent := true, isSecureContext := false
        hasRequestPermission := false, requestThrows := false
        permissionResponseGranted := false, confirmResult := false }).2.1 rfl rfl).1,
   ((init_notification_spec initialState
      { hasDeviceOrientationEvent := true, isSecureContext := true
        hasRequestPermission := true, requestThrows := false
        permissionResponseGranted := true, confirmResult := true }).2.2.1
      rfl rfl rfl rfl).1⟩

/-- C3: smoothing with weight 1 is the identity on angles in [0, range),
and update applies smoothing only when smoothingFactor is strictly below
1: with the default configuration (factor 1, threshold 0) the raw
converted angles pass through to the stored lastOrientation unchanged. -/
theorem smoothing_weight_one_identity :
    (∀ a b range : ℚ, 0 ≤ a → a < range → 0 ≤ b → b < range →
      getSmoothedAngle a b 1 range = a) ∧
    (∀ (pi : ℚ) (isIOS : Bool) (s : ControlsState) (device : DOSample),
      s.enabled = true → s.deviceOrientation = some device →
      s.smoothingFactor = 1 → s.orientationChangeThreshold = 0 →
      (update pi isIOS s).lastOrientation =
        some { alpha := rawAlpha pi s device, beta := rawBeta pi device
               gamma := rawGamma pi device }) := by
  constructor
  · intro a b range ha0 har hb0 hbr
    have hr : 0 < range := lt_of_le_of_lt ha0 har
    by_cases hC : (b > a ∧ |b - a| < range / 2) ∨ (a > b ∧ |b - a| > range / 2)
    · have ho : orderAngle a b range = { left := a, right := b } := by
        rw [orderAngle, if_pos hC]
      simp only [getSmoothedAngle, ho]
      split_ifs <;> linarith
    · have ho : orderAngle a b range = { left := b, right := a } := by
        rw [orderAngle, if_neg hC]
      simp only [getSmoothedAngle, ho]
      split_ifs <;> linarith
  · intro pi isIOS s device hen hdev hsf hth
    rcases hlast : s.lastOrientation with _ | last <;>
      cases isIOS <;>
        simp [update, hen, hdev, hsf, hth, hlast, calcAngleWithThreshold_zero,
          lt_self_iff_false]

theorem smoothing_weight_one_identity_witness :
    getSmoothedAngle (1 : ℚ) 2 1 4 = 1 ∧
    (update 3 false
        { initialState with
          deviceOrientation := some
            { alpha := 10, beta := 20, gamma := 30
              webkitCompassHeading := none, absolute := none } }).lastOrientation =
      some
        { alpha :=
            rawAlpha 3
              { initialState with
                deviceOrientation := some
                  { alpha := 10, beta := 20, gamma := 30
                    webkitCompassHeading := none, absolute := none } }
              { alpha := 10, beta := 20, gamma := 30
                webkitCompassHeading := none, absolute := none }
          beta :=
            rawBeta 3
              { alpha := 10, beta := 20, gamma := 30
                webkitCompassHeading := none, absolute := none }
          gamma :=
            rawGamma 3
              { alpha := 10, beta := 20, gamma := 30
                webkitCompassHeading := none, absolute := none } } :=
  ⟨smoothing_weight_one_identity.1 1 2 4 (by norm_num) (by norm_num)
      (by norm_num) (by norm_num),
   smoothing_weight_one_identity.2 3 false
      { initialState with
        deviceOrientation := some
          { alpha := 10, beta := 20, gamma := 30
            webkitCompassHeading := none, absolute := none } }
      { alpha := 10, beta := 20, gamma := 30
        webkitCompassHeading := none, absolute := none } rfl rfl rfl rfl⟩

/-- Helper: if x is reached by travelling a distance m counterclockwise
from L, where the other endpoint E is at counterclockwise distance d from
L with 0 ≤ m ≤ d ≤ range / 2, then x is within circular distance range / 2
of both L and E.  The disjunctions allow each quantity to be wrapped once
by the circumference. -/
theorem shorter_arc_leaf (L E d m range x : ℚ) (hr : 0 < range)
    (_hd0 : 0 ≤ d) (hd2 : d ≤ range / 2)
    (hm0 : 0 ≤ m) (hmd : m ≤ d)
    (hE : E - L = d ∨ E - L = d - range)
    (hx : x = L + m ∨ x = L + m - range) :
    circDist x L range ≤ range / 2 ∧ circDist x E range ≤ range / 2 := by
  have hrne : range ≠ 0 := ne_of_gt hr
  have hmr : m < range := by linarith
  have hdm0 : 0 ≤ d - m := by linarith
  have hdmr : d - m < range := by linarith
  constructor
  · refine le_trans (min_le_left _ _) ?_
    have hmm : mathMod (x - L) range = m := by
      rcases hx with h | h
      · rw [h, show L + m - L = m by ring]
        exact mathMod_eq_self hm0 hmr
      · rw [h, show L + m - range - L = m - range by ring, mathMod_sub_self hrne]
        exact mathMod_eq_self hm0 hmr
    rw [hmm]
    linarith
  · refine le_trans (min_le_right _ _) ?_
    have hmm : mathMod (E - x) range = d - m := by
      rcases hE with hE | hE <;> rcases hx with h | h
      · rw [h, show E - (L + m) = E - L - m by ring, hE]
        exact mathMod_eq_self hdm0 hdmr
      · rw [h, show E - (L + m - range) = E - L - m + range by ring, hE,
          show d - m + range = d - m + range by ring, mathMod_add_self hrne]
        exact mathMod_eq_self hdm0 hdmr
      · rw [h, show E - (L + m) = E - L - m by ring, hE,
          show d - range - m = d - m - range by ring, mathMod_sub_self hrne]
        exact mathMod_eq_self hdm0 hdmr
      · rw [h, show E - (L + m - range) = E - L - m + range by ring, hE,
          show d - range - m + range = d - m by ring]
        exact mathMod_eq_self hdm0 hdmr
    rw [hmm]
    linarith

/-- C2: for angles a (new) and b (previous) in [0, range) and every weight
k in (0, 1], the smoothed angle lies in [0, range) and is within circular
distance range / 2 of both a and b: the interpolation stays on the shorter
arc and never traverses the longer one. -/
theorem getSmoothedAngle_shorter_arc (a b k range : ℚ)
    (ha0 : 0 ≤ a) (har : a < range) (hb0 : 0 ≤ b) (hbr : b < range)
    (hk0 : 0 < k) (hk1 : k ≤ 1) :
    0 ≤ getSmoothedAngle a b k range ∧ getSmoothedAngle a b k range < range ∧
    circDist (getSmoothedAngle a b k range) a range ≤ range / 2 ∧
    circDist (getSmoothedAngle a b k range) b range ≤ range / 2 := by
  have hr : 0 < range := lt_of_le_of_lt ha0 har
  rcases lt_trichotomy a b with hab | hab | hab
  · have habs : |b - a| = b - a := abs_of_pos (by linarith)
    by_cases hlt : b - a < range / 2
    · have ho : orderAngle a b range = { left := a, right := b } := by
        rw [orderAngle, if_pos (Or.inl ⟨hab, by rw [habs]; exact hlt⟩)]
      have hm0 : 0 ≤ (1 - k) * (b - a) := by nlinarith
      have hmd : (1 - k) * (b - a) ≤ b - a := by nlinarith
      simp only [getSmoothedAngle, ho, if_true]
      rw [if_neg (by linarith : ¬ b - a < 0),
        if_neg (not_le.mpr (by nlinarith : (1 - k) * (b - a) + k * 0 + a < range))]
      refine ⟨by linarith, by nlinarith, ?_, ?_⟩
      · exact (shorter_arc_leaf a b (b - a) ((1 - k) * (b - a)) range _ hr
          (by linarith) (by linarith) hm0 hmd (Or.inl (by ring))
          (Or.inl (by ring))).1
      · exact (shorter_arc_leaf a b (b - a) ((1 - k) * (b - a)) range _ hr
          (by linarith) (by linarith) hm0 hmd (Or.inl (by ring))
          (Or.inl (by ring))).2
    · have ho : orderAngle a b range = { left := b, right := a } := by
        rw [orderAngle, if_neg]
        rintro (⟨h1, h2⟩ | ⟨h1, h2⟩)
        · rw [habs] at h2
          exact hlt h2
        · linarith
      have hd0 : 0 ≤ a - b + range := by linarith
      have hd2 : a - b + range ≤ range / 2 := by linarith
      have hm0 : 0 ≤ k * (a - b + range) := mul_nonneg hk0.le hd0
      have hmd : k * (a - b + range) ≤ a - b + range := by nlinarith
      simp only [getSmoothedAngle, ho]
      rw [if_pos (by linarith : a - b < 0), if_neg (ne_of_lt hab)]
      by_cases hw : k * (a - b + range) + (1 - k) * 0 + b ≥ range
      · rw [if_pos hw]
        refine ⟨by linarith, by linarith, ?_, ?_⟩
        · exact (shorter_arc_leaf b a (a - b + range) (k * (a - b + range)) range _
            hr hd0 hd2 hm0 hmd (Or.inr (by ring)) (Or.inr (by ring))).2
        · exact (shorter_arc_leaf b a (a - b + range) (k * (a - b + range)) range _
            hr hd0 hd2 hm0 hmd (Or.inr (by ring)) (Or.inr (by ring))).1
      · rw [if_neg hw]
        refine ⟨by linarith, by linarith, ?_, ?_⟩
        · exact (shorter_arc_leaf b a (a - b + range) (k * (a - b + range)) range _
            hr hd0 hd2 hm0 hmd (Or.inr (by ring)) (Or.inl (by ring))).2
        · exact (shorter_arc_leaf b a (a - b + range) (k * (a - b + range)) range _
            hr hd0 hd2 hm0 hmd (Or.inr (by ring)) (Or.inl (by ring))).1
  · subst hab
    have ho : orderAngle a a range = { left := a, right := a } := by
      rw [orderAngle, if_neg]
      rintro (⟨h1, h2⟩ | ⟨h1, h2⟩) <;> exact lt_irrefl _ h1
    simp only [getSmoothedAngle, ho, if_true]
    rw [if_neg (by linarith : ¬ a - a < 0),
      if_neg (not_le.mpr (by nlinarith : (1 - k) * (a - a) + k * 0 + a < range))]
    refine ⟨by nlinarith, by nlinarith, ?_, ?_⟩
    · exact (shorter_arc_leaf a a 0 0 range _ hr le_rfl (by linarith) le_rfl
        le_rfl (Or.inl (by ring)) (Or.inl (by ring))).1
    · exact (shorter_arc_leaf a a 0 0 range _ hr le_rfl (by linarith) le_rfl
        le_rfl (Or.inl (by ring)) (Or.inl (by ring))).2
  · have habs : |b - a| = a - b := by
      rw [abs_sub_comm]
      exact abs_of_pos (by linarith)
    by_cases hgt : a - b > range / 2
    · have ho : orderAngle a b range = { left := a, right := b } := by
        rw [orderAngle, if_pos (Or.inr ⟨hab, by rw [habs]; exact hgt⟩)]
      have hd0 : 0 ≤ b - a + range := by linarith
      have hd2 : b - a + range ≤ range / 2 := by linarith
      have hm0 : 0 ≤ (1 - k) * (b - a + range) := by nlinarith
      have hmd : (1 - k) * (b - a + range) ≤ b - a + range := by nlinarith
      simp only [getSmoothedAngle, ho, if_true]
      rw [if_pos (by linarith : b - a < 0)]
      by_cases hw : (1 - k) * (b - a + range) + k * 0 + a ≥ range
      · rw [if_pos hw]
        refine ⟨by linarith, by linarith, ?_, ?_⟩
        · exact (shorter_arc_leaf a b (b - a + range) ((1 - k) * (b - a + range))
            range _ hr hd0 hd2 hm0 hmd (Or.inr (by ring)) (Or.inr (by ring))).1
        · exact (shorter_arc_leaf a b (b - a + range) ((1 - k) * (b - a + range))
            range _ hr hd0 hd2 hm0 hmd (Or.inr (by ring)) (Or.inr (by ring))).2
      · rw [if_neg hw]
        refine ⟨by linarith, by linarith, ?_, ?_⟩
        · exact (shorter_arc_leaf a b (b - a + range) ((1 - k) * (b - a + range))
            range _ hr hd0 hd2 hm0 hmd (Or.inr (by ring)) (Or.inl (by ring))).1
        · exact (shorter_arc_leaf a b (b - a + range) ((1 - k) * (b - a + range))
            range _ hr hd0 hd2 hm0 hmd (Or.inr (by ring)) (Or.inl (by ring))).2
    · have ho : orderAngle a b range = { left := b, right := a } := by
        rw [orderAngle, if_neg]
        rintro (⟨h1, h2⟩ | ⟨h1, h2⟩)
        · linarith
        · rw [habs] at h2
          exact hgt h2
      have hd0 : 0 ≤ a - b := by linarith
      have hd2 : a - b ≤ range / 2 := by linarith
      have hm0 : 0 ≤ k * (a - b) := mul_nonneg hk0.le hd0
      have hmd : k * (a - b) ≤ a - b := by nlinarith
      simp only [getSmoothedAngle, ho]
      rw [if_neg (by linarith : ¬ a - b < 0), if_neg (ne_of_gt hab),
        if_neg (not_le.mpr (by nlinarith : k * (a - b) + (1 - k) * 0 + b < range))]
      refine ⟨by linarith, by nlinarith, ?_, ?_⟩
      · exact (shorter_arc_leaf b a (a - b) (k * (a - b)) range _ hr hd0 hd2
          hm0 hmd (Or.inl (by ring)) (Or.inl (by ring))).2
      · exact (shorter_arc_leaf b a (a - b) (k * (a - b)) range _ hr hd0 hd2
          hm0 hmd (Or.inl (by ring)) (Or.inl (by ring))).1

theorem getSmoothedAngle_shorter_arc_witness :
    0 ≤ getSmoothedAngle (1 : ℚ) 3 (1 / 2) 8 ∧
    getSmoothedAngle (1 : ℚ) 3 (1 / 2) 8 < 8 ∧
    circDist (getSmoothedAngle (1 : ℚ) 3 (1 / 2) 8) 1 8 ≤ 8 / 2 ∧
    circDist (getSmoothedAngle (1 : ℚ) 3 (1 / 2) 8) 3 8 ≤ 8 / 2 :=
  getSmoothedAngle_shorter_arc 1 3 (1 / 2) 8 (by norm_num) (by norm_num)
    (by norm_num) (by norm_num) (by norm_num) (by norm_num)

/-- C10: when the two angles are exactly half the range apart, the
ordering tie-break deterministically picks the previous angle b as the
left endpoint and the new angle a as the right endpoint, so the smoothed
angle interpolates from b toward a along that arc: it equals
b + k * (range / 2), wrapped back into the range when it overflows. -/
theorem orderAngle_tie_break (a b k range : ℚ) (hne : a ≠ b)
    (hhalf : |a - b| = range / 2) :
    orderAngle a b range = { left := b, right := a } ∧
    getSmoothedAngle a b k range =
      (if k * (range / 2) + b ≥ range then k * (range / 2) + b - range
       else k * (range / 2) + b) := by
  have habs0 : 0 < |a - b| := abs_pos.mpr (sub_ne_zero.mpr hne)
  have hr2 : 0 < range / 2 := hhalf ▸ habs0
  have hC : ¬ ((b > a ∧ |b - a| < range / 2) ∨ (a > b ∧ |b - a| > range / 2)) := by
    have hhalf2 : |b - a| = range / 2 := by rw [abs_sub_comm]; exact hhalf
    rintro (⟨h1, h2⟩ | ⟨h1, h2⟩)
    · rw [hhalf2] at h2
      exact lt_irrefl _ h2
    · rw [hhalf2] at h2
      exact lt_irrefl _ h2
  have ho : orderAngle a b range = { left := b, right := a } := by
    rw [orderAngle, if_neg hC]
  refine ⟨ho, ?_⟩
  rcases (abs_eq hr2.le).mp hhalf with hd | hd
  · simp only [getSmoothedAngle, ho]
    rw [if_neg hne, if_neg (by linarith : ¬ a - b < 0), hd,
      show k * (range / 2) + (1 - k) * 0 + b = k * (range / 2) + b by ring]
  · simp only [getSmoothedAngle, ho]
    rw [if_neg hne, if_pos (by linarith : a - b < 0), hd,
      show k * (-(range / 2) + range) + (1 - k) * 0 + b = k * (range / 2) + b by ring]

theorem orderAngle_tie_break_witness :
    orderAngle (3 : ℚ) 1 4 = { left := 1, right := 3 } ∧
    getSmoothedAngle (3 : ℚ) 1 (1 / 2) 4 =
      (if (1 / 2 : ℚ) * (4 / 2) + 1 ≥ 4 then (1 / 2 : ℚ) * (4 / 2) + 1 - 4
       else (1 / 2 : ℚ) * (4 / 2) + 1) :=
  orderAngle_tie_break 3 1 (1 / 2) 4 (by norm_num)
    (by rw [abs_of_nonneg (by norm_num : (0 : ℚ) ≤ 3 - 1)]; norm_num)

/-- Helper: the final normalisation step of the Android heading path maps
any rational onto [0, 360): the JavaScript remainder lands in (-360, 360)
and one conditional +360 lifts the negative case. -/
theorem jsWrap_bounds (x : ℚ) :
    0 ≤ (if jsMod x 360 < 0 then jsMod x 360 + 360 else jsMod x 360) ∧
    (if jsMod x 360 < 0 then jsMod x 360 + 360 else jsMod x 360) < 360 := by
  rcases le_or_lt 0 x with hx | hx
  · rw [jsMod_eq_mathMod hx (by norm_num)]
    have h0 : 0 ≤ mathMod x 360 := mathMod_nonneg (by norm_num)
    have h1 : mathMod x 360 < 360 := mathMod_lt (by norm_num)
    rw [if_neg (not_lt.mpr h0)]
    exact ⟨h0, h1⟩
  · obtain ⟨hl, hu⟩ := jsMod_neg_bounds hx (by norm_num : (0 : ℚ) < 360)
    by_cases h : jsMod x 360 < 0
    · rw [if_pos h]
      constructor <;> linarith
    · rw [if_neg h]
      constructor <;> linarith

/-- C1 counterexample: in the reachable state produced by a single iOS
orientation event with compass heading 0 (orientationOffset still 0),
getCorrectedHeading returns 360, which is outside [0, 360), while the
specification formula (360 - compassHeading + offset in degrees) mod 360
gives 0 there. -/
theorem heading_edge_counterexample :
    getCorrectedHeading 3 true
      (onDeviceOrientationChangeEvent 3 true
        { alpha := some 0, beta := some 0, gamma := some 0
          webkitCompassHeading := some 0 } initialState) = 360 ∧
    ¬ ((360 : ℚ) < 360) ∧
    mathMod (360 - 0 + 0 * (180 / 3)) 360 = 0 := by
  refine ⟨?_, by norm_num, ?_⟩
  · norm_num [getCorrectedHeading, onDeviceOrientationChangeEvent, initialState]
  · have : (360 : ℚ) - 0 + 0 * (180 / 3) = 360 := by norm_num
    rw [this, mathMod]
    norm_num

/-- C1 amended: getCorrectedHeading returns 0 when no sample is stored; on
the Apple-mobile path, for stored compass headings in [0, 360) and the
reachable orientation offsets 0 and plus or minus pi/2, it equals
(360 - compassHeading + offset in degrees) mod 360 and lies in [0, 360)
except in the single case compassHeading = 0 with offset 0, where the
truthiness test skips the modulus and the value 360 is returned; on the
non-Apple path the result always lies in [0, 360). -/
theorem getCorrectedHeading_amended (pi : ℚ) (hpi : 0 < pi) (s : ControlsState) :
    (s.deviceOrientation = none → ∀ isIOS, getCorrectedHeading pi isIOS s = 0) ∧
    (∀ device, s.deviceOrientation = some device →
      (∀ ch, device.webkitCompassHeading = some ch → 0 ≤ ch → ch < 360 →
        (s.orientationOffset = 0 ∨ s.orientationOffset = pi / 2 ∨
          s.orientationOffset = -(pi / 2)) →
        (¬ (ch = 0 ∧ s.orientationOffset = 0) →
          getCorrectedHeading pi true s =
            mathMod (360 - ch + s.orientationOffset * (180 / pi)) 360 ∧
          0 ≤ getCorrectedHeading pi true s ∧
          getCorrectedHeading pi true s < 360) ∧
        (ch = 0 → s.orientationOffset = 0 → getCorrectedHeading pi true s = 360)) ∧
      (0 ≤ getCorrectedHeading pi false s ∧ getCorrectedHeading pi false s < 360)) := by
  have hpine : pi ≠ 0 := ne_of_gt hpi
  constructor
  · intro h isIOS
    simp [getCorrectedHeading, h]
  · intro device hdev
    constructor
    · intro ch hch hch0 hch360 hoff
      constructor
      · intro hnot
        rcases hoff with h0 | h90 | hm90
        · have hchne : ch ≠ 0 := fun hc => hnot ⟨hc, h0⟩
          have hchpos : 0 < ch := lt_of_le_of_ne hch0 (Ne.symm hchne)
          have hval : getCorrectedHeading pi true s = 360 - ch := by
            simp [getCorrectedHeading, hdev, hch, h0]
          rw [hval, h0]
          have hform : mathMod (360 - ch + 0 * (180 / pi)) 360 = 360 - ch := by
            rw [show (360 : ℚ) - ch + 0 * (180 / pi) = 360 - ch by ring]
            exact mathMod_eq_self (by linarith) (by linarith)
          exact ⟨hform.symm, by linarith, by linarith⟩
        · have hoffne : s.orientationOffset ≠ 0 := by
            rw [h90]
            exact div_ne_zero hpine (by norm_num)
          have hdeg : pi / 2 * (180 / pi) = 90 := by
            field_simp
            ring
          have hval : getCorrectedHeading pi true s =
              jsMod (360 - ch + s.orientationOffset * (180 / pi) + 360) 360 := by
            simp [getCorrectedHeading, hdev, hch, hoffne]
          have hjs : jsMod (360 - ch + 90 + 360) 360 =
              mathMod (360 - ch + 90) 360 := by
            rw [jsMod_eq_mathMod (by linarith) (by norm_num)]
            exact mathMod_add_self (by norm_num)
          rw [hval, h90, hdeg, hjs]
          exact ⟨rfl, mathMod_nonneg (by norm_num), mathMod_lt (by norm_num)⟩
        · have hoffne : s.orientationOffset ≠ 0 := by
            rw [hm90]
            exact neg_ne_zero.mpr (div_ne_zero hpine (by norm_num))
          have hdeg90 : pi / 2 * (180 / pi) = 90 := by
            field_simp
            ring
          have hdeg : -(pi / 2) * (180 / pi) = -90 := by
            rw [neg_mul, hdeg90]
          have hval : getCorrectedHeading pi true s =
              jsMod (360 - ch + s.orientationOffset * (180 / pi) + 360) 360 := by
            simp [getCorrectedHeading, hdev, hch, hoffne]
          have hjs : jsMod (360 - ch + -90 + 360) 360 =
              mathMod (360 - ch + -90) 360 := by
            rw [jsMod_eq_mathMod (by linarith) (by norm_num)]
            exact mathMod_add_self (by norm_num)
          rw [hval, hm90, hdeg, hjs]
          exact ⟨rfl, mathMod_nonneg (by norm_num), mathMod_lt (by norm_num)⟩
      · intro hch0' hoff0
        have hval : getCorrectedHeading pi true s = 360 - ch := by
          simp [getCorrectedHeading, hdev, hch, hoff0]
        rw [hval, hch0']
        norm_num
    · have hval : getCorrectedHeading pi false s =
          (if jsMod (360 - (if device.alpha ≠ 0 then device.alpha else 0)) 360 < 0
           then jsMod (360 - (if device.alpha ≠ 0 then device.alpha else 0)) 360 + 360
           else jsMod (360 - (if device.alpha ≠ 0 then device.alpha else 0)) 360) := by
        simp [getCorrectedHeading, hdev]
      rw [hval]
      exact jsWrap_bounds _

theorem getCorrectedHeading_amended_witness :
    getCorrectedHeading 3 true
      { initialState with
        deviceOrientation := some
          { alpha := 0, beta := 0, gamma := 0
            webkitCompassHeading := some 90, absolute := none } } =
      mathMod (360 - 90 + 0 * (180 / 3)) 360 ∧
    0 ≤ getCorrectedHeading 3 true
      { initialState with
        deviceOrientation := some
          { alpha := 0, beta := 0, gamma := 0
            webkitCompassHeading := some 90, absolute := none } } ∧
    getCorrectedHeading 3 true
      { initialState with
        deviceOrientation := some
          { alpha := 0, beta := 0, gamma := 0
            webkitCompassHeading := some 90, absolute := none } } < 360 :=
  (((getCorrectedHeading_amended 3 (by norm_num)
      { initialState with
        deviceOrientation := some
          { alpha := 0, beta := 0, gamma := 0
            webkitCompassHeading := some 90, absolute := none } }).2
    { alpha := 0, beta := 0, gamma := 0
      webkitCompassHeading := some 90, absolute := none } rfl).1
    90 rfl (by norm_num) (by norm_num) (Or.inl rfl)).1
    (fun h => absurd h.1 (by norm_num))

/-- C6 counterexample: an event whose alpha is -370 is stored on the
non-Apple path with alpha equal to -10, which is negative: the single +360
wrap does not bring every incoming alpha into [0, 360). -/
theorem alpha_wrap_counterexample :
    ∃ device,
      (onDeviceOrientationChangeEvent 3 false
        { alpha := some (-370), beta := some 0, gamma := some 0
          webkitCompassHeading := none } initialState).deviceOrientation =
        some device ∧ device.alpha = -10 ∧ device.alpha < 0 := by
  refine ⟨_, rfl, ?_, ?_⟩
  · show (if (-370 : ℚ) < 0 then (-370 : ℚ) + 360 else -370) = -10
    norm_num
  · show (if (-370 : ℚ) < 0 then (-370 : ℚ) + 360 else -370) < 0
    norm_num

/-- C6 amended: restricted to events whose alpha (defaulted to 0 when the
field is missing) lies strictly between -360 and 360, the non-Apple
handler stores an alpha in [0, 360); an event alpha of -10 is stored as
350. -/
theorem alpha_wrap_amended (pi : ℚ) (event : OrientationEvent) (s : ControlsState)
    (h1 : -360 < event.alpha.getD 0) (h2 : event.alpha.getD 0 < 360) :
    ∃ device,
      (onDeviceOrientationChangeEvent pi false event s).deviceOrientation =
        some device ∧
      0 ≤ device.alpha ∧ device.alpha < 360 ∧
      (event.alpha = some (-10) → device.alpha = 350) := by
  refine ⟨_, rfl, ?_, ?_, ?_⟩
  · show (0 : ℚ) ≤ if event.alpha.getD 0 < 0 then event.alpha.getD 0 + 360
      else event.alpha.getD 0
    split
    · linarith
    · linarith [not_lt.mp (by assumption : ¬ event.alpha.getD 0 < 0)]
  · show (if event.alpha.getD 0 < 0 then event.alpha.getD 0 + 360
      else event.alpha.getD 0) < 360
    split
    · linarith
    · exact h2
  · intro h
    show (if event.alpha.getD 0 < 0 then event.alpha.getD 0 + 360
      else event.alpha.getD 0) = 350
    rw [h]
    norm_num

theorem alpha_wrap_amended_witness :
    ∃ device,
      (onDeviceOrientationChangeEvent 3 false
        { alpha := some (-10), beta := none, gamma := none
          webkitCompassHeading := none } initialState).deviceOrientation =
        some device ∧
      0 ≤ device.alpha ∧ device.alpha < 360 ∧
      ((some (-10) : Option ℚ) = some (-10) → device.alpha = 350) :=
  alpha_wrap_amended 3
    { alpha := some (-10), beta := none, gamma := none
      webkitCompassHeading := none } initialState
    (by norm_num) (by norm_num)

theorem accessor_zero_truthiness_witness :
    getAlpha 3
      { initialState with
        deviceOrientation := some
          { alpha := 0, beta := 1, gamma := 2
            webkitCompassHeading := none, absolute := none }
        alphaOffset := 5 } = 0 :=
  (accessor_zero_truthiness 3
    { initialState with
      deviceOrientation := some
        { alpha := 0, beta := 1, gamma := 2
          webkitCompassHeading := none, absolute := none }
      alphaOffset := 5 }
    { alpha := 0, beta := 1, gamma := 2
      webkitCompassHeading := none, absolute := none } rfl).1 rfl

end LocAR
